import Mathlib

/-!
Verification of the rendezvous discovery state machine and the swap-setup
wire codec of the xmr-btc-swap repository.

The Rust sources embedded here:
- swap/src/asb/rendezvous.rs   (discovery state machine `Behaviour`)
- swap/src/network/swap_setup.rs (message types and CBOR wire codec)

Machine integers are modelled as Nat with explicit bounds where overflow
matters. Instants are modelled as nanoseconds since an arbitrary epoch;
Duration::from_secs(ttl) / 2 in Rust divides the total nanosecond count,
which is exact because a second has an even number of nanoseconds.
-/

namespace XmrBtcSwap

/-! ## Multiaddresses

A libp2p PeerId is abstracted to a Nat. A Multiaddr is the list of its
protocol components; the only component the code inspects is P2p. -/

inductive MProtocol where
  | p2p (peer : Nat)
  | other (tag : Nat)
deriving DecidableEq, Repr

abbrev Multiaddr := List MProtocol

/-! ## Discovery state machine (swap/src/asb/rendezvous.rs) -/

inductive ConnectionState where
  | Dialed
  | Connected
  | Disconnected
deriving DecidableEq, Repr

/-- One outbound action pushed onto the events queue of the behaviour
(rendezvous.rs line 95, NetworkBehaviourAction::DialAddress). -/
inductive NetworkBehaviourAction where
  | dialAddress (address : Multiaddr)
deriving DecidableEq, Repr

/-- The arguments the behaviour passes to the inner rendezvous
behaviour when it registers (rendezvous.rs lines 56-63): the namespace
string, the rendezvous node and a ttl of None. -/
structure RegistrationMsg where
  nspace : String
  rendezvous_node : Nat
  ttl : Option Nat
deriving DecidableEq, Repr

/-- State of the Behaviour struct (rendezvous.rs lines 23-32). The inner
libp2p rendezvous behaviour is external and not part of the state; the
registration messages handed to it are returned as outputs instead.
The namespace is modelled by its to_string image. -/
structure Behaviour where
  rendezvous_point_peer_id : Nat
  rendezvous_point_addr : Multiaddr
  rendezvous_namespace : String
  rendezvous_reregister_timestamp : Option Nat
  rendezvous_node_connection : ConnectionState
  is_initial_registration : Bool
  events : List NetworkBehaviourAction
deriving DecidableEq, Repr

/-- Behaviour::new (rendezvous.rs lines 35-54). -/
def Behaviour.new (peer_id : Nat) (addr : Multiaddr) (nspace : String) : Behaviour :=
  { rendezvous_point_peer_id := peer_id
    rendezvous_point_addr := addr
    rendezvous_namespace := nspace
    rendezvous_reregister_timestamp := none
    rendezvous_node_connection := .Disconnected
    is_initial_registration := true
    events := [] }

/-- The message sent by Behaviour::register (rendezvous.rs lines 56-63). -/
def Behaviour.registerMsg (b : Behaviour) : RegistrationMsg :=
  { nspace := b.rendezvous_namespace
    rendezvous_node := b.rendezvous_point_peer_id
    ttl := none }

/-- The address normalization performed in the Disconnected branch of
refresh (rendezvous.rs lines 85-93): append the P2p component of the
rendezvous peer unless the address already ends with it. -/
def normalizeAddr (peer : Nat) (addr : Multiaddr) : Multiaddr :=
  if ¬ (([MProtocol.p2p peer] : Multiaddr).isSuffixOf addr) then
    addr ++ [MProtocol.p2p peer]
  else
    addr

/-- Behaviour::refresh (rendezvous.rs lines 65-102). Instant::now() is the
parameter now (nanoseconds). Returns the updated state together with the
registration messages passed to the inner rendezvous behaviour. -/
def Behaviour.refresh (b : Behaviour) (now : Nat) : Behaviour × List RegistrationMsg :=
  match b.rendezvous_node_connection with
  | .Dialed => (b, [])
  | .Connected =>
    match b.rendezvous_reregister_timestamp with
    | some ts =>
      if ts < now ∧ b.is_initial_registration = false then
        (b, [b.registerMsg])
      else
        (b, [])
    | none =>
      if b.is_initial_registration then
        ({ b with is_initial_registration := false }, [b.registerMsg])
      else
        (b, [])
  | .Disconnected =>
    ({ b with
        events := b.events ++ [.dialAddress (normalizeAddr b.rendezvous_point_peer_id b.rendezvous_point_addr)]
        rendezvous_node_connection := .Dialed }, [])

/-- inject_connected (rendezvous.rs lines 120-124). -/
def Behaviour.inject_connected (b : Behaviour) (peer_id : Nat) : Behaviour :=
  if peer_id = b.rendezvous_point_peer_id then
    { b with rendezvous_node_connection := .Connected }
  else
    b

/-- inject_disconnected (rendezvous.rs lines 126-131). -/
def Behaviour.inject_disconnected (b : Behaviour) (peer_id : Nat) : Behaviour :=
  if peer_id = b.rendezvous_point_peer_id then
    { b with
        rendezvous_node_connection := .Disconnected
        is_initial_registration := false }
  else
    b

/-- The rendezvous protocol events the behaviour reacts to
(rendezvous.rs lines 154-185); every other libp2p rendezvous event falls
into the wildcard arm and is modelled as otherEvent. -/
inductive REvent where
  | registerFailed
  | registered (rendezvous_node : Nat) (ttl : Nat) (nspace : String)
  | otherEvent
deriving DecidableEq, Repr

def nanosPerSec : Nat := 1000000000

/-- NetworkBehaviourEventProcess::inject_event (rendezvous.rs lines
154-185). The mismatch checks on the registered event only emit log
lines (lines 168-175) and have no effect on the state; the
re-registration timestamp is recomputed unconditionally (lines 178-179)
as Instant::now() + Duration::from_secs(ttl) / 2, which in nanoseconds
is now + ttl * nanosPerSec / 2 (exact, since nanosPerSec is even). -/
def Behaviour.inject_event (b : Behaviour) (now : Nat) (event : REvent) : Behaviour :=
  match event with
  | .registerFailed => { b with is_initial_registration := false }
  | .registered _rendezvous_node ttl _nspace =>
      { b with
          is_initial_registration := false
          rendezvous_reregister_timestamp := some (now + ttl * nanosPerSec / 2) }
  | .otherEvent => b

/-! ## Trace semantics

The behaviour is driven by an external event loop: refresh ticks,
connection lifecycle notifications and rendezvous protocol events. -/

inductive InEvent where
  | refreshTick (now : Nat)
  | connected (peer : Nat)
  | disconnected (peer : Nat)
  | rendezvous (now : Nat) (e : REvent)
deriving DecidableEq, Repr

/-- One driver step: the state update together with the registration
messages sent during that step. Only refresh ever registers. -/
def Behaviour.step (b : Behaviour) (e : InEvent) : Behaviour × List RegistrationMsg :=
  match e with
  | .refreshTick now => b.refresh now
  | .connected p => (b.inject_connected p, [])
  | .disconnected p => (b.inject_disconnected p, [])
  | .rendezvous now ev => (b.inject_event now ev, [])

/-- Run a sequence of driver events from a state. -/
def Behaviour.run (b : Behaviour) : List InEvent → Behaviour
  | [] => b
  | e :: rest => ((b.step e).1).run rest

/-- True when, somewhere along the trace, a step sends a registration
message from a state whose connection state is not Connected. -/
def Behaviour.regWhileNotConnected (b : Behaviour) : List InEvent → Bool
  | [] => false
  | e :: rest =>
    (decide ((b.step e).2 ≠ []) && decide (b.rendezvous_node_connection ≠ .Connected))
      || ((b.step e).1).regWhileNotConnected rest

/-- True when the state is due for a re-registration: connected, past
the initial registration, and the re-register timestamp has passed. -/
def Behaviour.reregisterDue (b : Behaviour) (now : Nat) : Bool :=
  match b.rendezvous_node_connection, b.rendezvous_reregister_timestamp with
  | .Connected, some ts => decide (ts < now) && !b.is_initial_registration
  | _, _ => false

/-! ## Helper lemmas about the state machine -/

/-- A step only ever hands registration messages to the inner rendezvous
behaviour from a Connected state. -/
theorem step_reg_only_connected (b : Behaviour) (e : InEvent) :
    (b.step e).2 ≠ [] → b.rendezvous_node_connection = .Connected := by
  intro hne
  cases e with
  | refreshTick now =>
    cases hconn : b.rendezvous_node_connection with
    | Connected => rfl
    | Dialed => simp [Behaviour.step, Behaviour.refresh, hconn] at hne
    | Disconnected => simp [Behaviour.step, Behaviour.refresh, hconn] at hne
  | connected p => simp [Behaviour.step] at hne
  | disconnected p => simp [Behaviour.step] at hne
  | rendezvous now ev => simp [Behaviour.step] at hne

theorem regWhileNotConnected_false (es : List InEvent) : ∀ b : Behaviour,
    b.regWhileNotConnected es = false := by
  induction es with
  | nil => intro b; rfl
  | cons e rest ih =>
    intro b
    unfold Behaviour.regWhileNotConnected
    rw [ih]
    simp only [Bool.or_false]
    by_cases h : (b.step e).2 = []
    · simp [h]
    · simp [step_reg_only_connected b e h]

/-! ## Claim theorems for the discovery state machine -/

/-- Claim C1: over every sequence of connect/disconnect events, rendezvous
events and refresh calls applied to a freshly constructed behaviour, a
registration message is sent only from a state whose connection state is
Connected; no reachable state with a different connection state ever
sends one. -/
theorem registration_only_when_connected
    (peer : Nat) (addr : Multiaddr) (nspace : String) (es : List InEvent) :
    (Behaviour.new peer addr nspace).regWhileNotConnected es = false :=
  regWhileNotConnected_false es _

/-- Claim C3: a registration acknowledgment from the expected peer for the
expected namespace carrying lease ttl (seconds) sets the re-registration
timestamp to the acknowledgment time plus exactly half the lease: the
halving of ttl * nanosPerSec is exact, and for a positive lease the
scheduled offset differs from the full lease. -/
theorem registered_ack_sets_half_lease (b : Behaviour) (now ttl : Nat) :
    (b.inject_event now (.registered b.rendezvous_point_peer_id ttl b.rendezvous_namespace)).rendezvous_reregister_timestamp
      = some (now + ttl * nanosPerSec / 2)
    ∧ 2 * (ttl * nanosPerSec / 2) = ttl * nanosPerSec
    ∧ (0 < ttl → ttl * nanosPerSec / 2 ≠ ttl * nanosPerSec) := by
  refine ⟨rfl, ?_, ?_⟩ <;> simp only [nanosPerSec] <;> omega

theorem registered_ack_sets_half_lease_witness :
    ((Behaviour.new 1 [] "mainnet").inject_event 3 (.registered 1 7 "mainnet")).rendezvous_reregister_timestamp
      = some (3 + 7 * nanosPerSec / 2)
    ∧ 7 * nanosPerSec / 2 ≠ 7 * nanosPerSec :=
  ⟨(registered_ack_sets_half_lease (Behaviour.new 1 [] "mainnet") 3 7).1,
   (registered_ack_sets_half_lease (Behaviour.new 1 [] "mainnet") 3 7).2.2 (by decide)⟩

/-- Claim C7: the normalized dial address always ends with the p2p
component of the rendezvous peer; the component is appended exactly when
the address does not already end with it; and normalization is
idempotent. -/
theorem normalizeAddr_spec (peer : Nat) (addr : Multiaddr) :
    ([MProtocol.p2p peer] : Multiaddr).isSuffixOf (normalizeAddr peer addr) = true
    ∧ (([MProtocol.p2p peer] : Multiaddr).isSuffixOf addr = false →
        normalizeAddr peer addr = addr ++ [MProtocol.p2p peer])
    ∧ (([MProtocol.p2p peer] : Multiaddr).isSuffixOf addr = true →
        normalizeAddr peer addr = addr)
    ∧ normalizeAddr peer (normalizeAddr peer addr) = normalizeAddr peer addr := by
  have happ : ([MProtocol.p2p peer] : Multiaddr).isSuffixOf (addr ++ [MProtocol.p2p peer]) = true := by
    rw [List.isSuffixOf_iff_suffix]
    exact List.suffix_append addr _
  by_cases h : ([MProtocol.p2p peer] : Multiaddr).isSuffixOf addr = true
  · refine ⟨?_, ?_, ?_, ?_⟩ <;> simp [normalizeAddr, h]
  · rw [Bool.not_eq_true] at h
    refine ⟨?_, ?_, ?_, ?_⟩ <;> simp [normalizeAddr, h, happ]

theorem normalizeAddr_spec_witness :
    ([MProtocol.p2p 1] : Multiaddr).isSuffixOf (normalizeAddr 1 [MProtocol.other 0]) = true
    ∧ normalizeAddr 1 [MProtocol.other 0] = [MProtocol.other 0, MProtocol.p2p 1]
    ∧ normalizeAddr 1 [MProtocol.other 0, MProtocol.p2p 1] = [MProtocol.other 0, MProtocol.p2p 1] :=
  ⟨(normalizeAddr_spec 1 [MProtocol.other 0]).1,
   (normalizeAddr_spec 1 [MProtocol.other 0]).2.1 (by decide),
   (normalizeAddr_spec 1 [MProtocol.other 0, MProtocol.p2p 1]).2.2.1 (by decide)⟩

/-- Claim C8: a registration-failed event clears the initial-registration
flag and changes nothing else; in particular the connection state, the
re-register timestamp, the configured peer, address and namespace and the
outbound events queue are untouched, and no registration message is
produced by the step. -/
theorem register_failed_only_clears_initial_flag (b : Behaviour) (now : Nat) :
    b.inject_event now .registerFailed = { b with is_initial_registration := false }
    ∧ (b.step (.rendezvous now .registerFailed)).2 = []
    ∧ (b.inject_event now .registerFailed).rendezvous_node_connection = b.rendezvous_node_connection
    ∧ (b.inject_event now .registerFailed).rendezvous_reregister_timestamp = b.rendezvous_reregister_timestamp
    ∧ (b.inject_event now .registerFailed).rendezvous_point_peer_id = b.rendezvous_point_peer_id
    ∧ (b.inject_event now .registerFailed).rendezvous_point_addr = b.rendezvous_point_addr
    ∧ (b.inject_event now .registerFailed).rendezvous_namespace = b.rendezvous_namespace
    ∧ (b.inject_event now .registerFailed).events = b.events :=
  ⟨rfl, rfl, rfl, rfl, rfl, rfl, rfl, rfl⟩

/-- Claim C9: with an outstanding dial, refresh is a no-op: the state is
returned unchanged and no registration message is sent, so repeated
refresh calls in the Dialed state produce no additional connect attempts. -/
theorem refresh_dialed_noop (b : Behaviour) (now : Nat)
    (h : b.rendezvous_node_connection = .Dialed) :
    b.refresh now = (b, []) := by
  simp [Behaviour.refresh, h]

theorem refresh_dialed_noop_witness :
    ({ Behaviour.new 1 [] "mainnet" with rendezvous_node_connection := .Dialed } : Behaviour).refresh 5
      = ({ Behaviour.new 1 [] "mainnet" with rendezvous_node_connection := .Dialed }, []) :=
  refresh_dialed_noop _ 5 rfl

/-- Claim C10: connection lifecycle events for a peer other than the
configured rendezvous point leave the whole state unchanged. -/
theorem lifecycle_events_filtered_by_peer (b : Behaviour) (p : Nat)
    (h : p ≠ b.rendezvous_point_peer_id) :
    b.inject_connected p = b ∧ b.inject_disconnected p = b := by
  constructor <;> simp [Behaviour.inject_connected, Behaviour.inject_disconnected, h]

theorem lifecycle_events_filtered_by_peer_witness :
    (Behaviour.new 1 [] "mainnet").inject_connected 2 = Behaviour.new 1 [] "mainnet"
    ∧ (Behaviour.new 1 [] "mainnet").inject_disconnected 2 = Behaviour.new 1 [] "mainnet" :=
  lifecycle_events_filtered_by_peer (Behaviour.new 1 [] "mainnet") 2 (by decide)

/-- Claim C2 counterexample: a registration acknowledgment from an
unexpected rendezvous node (peer 2 while peer 1 is configured) does
modify the re-register timestamp, against the claim that apart from the
initial-registration flag no field changes. -/
theorem mismatched_ack_modifies_timestamp :
    (2 : Nat) ≠ (Behaviour.new 1 [] "mainnet").rendezvous_point_peer_id
    ∧ ((Behaviour.new 1 [] "mainnet").inject_event 100 (.registered 2 7 "mainnet")).rendezvous_reregister_timestamp
        ≠ (Behaviour.new 1 [] "mainnet").rendezvous_reregister_timestamp := by
  exact ⟨by decide, by decide⟩

/-- Claim C2 amended: on a mismatched registration acknowledgment the
machine clears the initial-registration flag and also recomputes the
re-register timestamp to now plus half the lease, exactly as for a
matching acknowledgment; every other field is unchanged and no
registration message is produced by the step. -/
theorem mismatched_ack_only_logs (b : Behaviour) (now ttl node : Nat) (nspace : String)
    (_mismatch : node ≠ b.rendezvous_point_peer_id ∨ nspace ≠ b.rendezvous_namespace) :
    b.inject_event now (.registered node ttl nspace)
      = { b with
            is_initial_registration := false
            rendezvous_reregister_timestamp := some (now + ttl * nanosPerSec / 2) }
    ∧ (b.step (.rendezvous now (.registered node ttl nspace))).2 = [] :=
  ⟨rfl, rfl⟩

theorem mismatched_ack_only_logs_witness :
    (Behaviour.new 1 [] "mainnet").inject_event 100 (.registered 2 7 "mainnet")
      = { Behaviour.new 1 [] "mainnet" with
            is_initial_registration := false
            rendezvous_reregister_timestamp := some (100 + 7 * nanosPerSec / 2) }
    ∧ ((Behaviour.new 1 [] "mainnet").step (.rendezvous 100 (.registered 2 7 "mainnet"))).2 = [] :=
  mismatched_ack_only_logs (Behaviour.new 1 [] "mainnet") 100 7 2 "mainnet" (.inl (by decide))

/-- Claim C4 counterexample: refresh is not idempotent on outputs. In the
reachable state obtained by dialing, connecting, registering and
receiving an acknowledgment with a 10 second lease, once the re-register
time has passed, a second immediate refresh call sends a further
registration message (the first call does not update the timestamp; only
an acknowledgment does). -/
theorem refresh_not_idempotent :
    ((((Behaviour.new 1 [] "mainnet").run
        [.refreshTick 0, .connected 1, .refreshTick 0,
         .rendezvous 0 (.registered 1 10 "mainnet")]).refresh 6000000000).1.refresh
        6000000000).2 ≠ [] := by
  decide

/-- Claim C4 amended: refresh is idempotent on the state (a second
immediate call leaves the state, including the queued dial actions,
exactly as after the first call), and the second call emits no
registration message except when the state after the first call is due
for a re-registration, in which case the second call emits one
additional registration message. -/
theorem refresh_twice (s : Behaviour) (now : Nat) :
    ((s.refresh now).1.refresh now).1 = (s.refresh now).1
    ∧ ((s.refresh now).1.refresh now).2
        = (if (s.refresh now).1.reregisterDue now then [(s.refresh now).1.registerMsg] else []) := by
  obtain ⟨pid, addr, nspace, ts, conn, flag, evs⟩ := s
  cases conn with
  | Dialed => simp [Behaviour.refresh, Behaviour.reregisterDue]
  | Disconnected => simp [Behaviour.refresh, Behaviour.reregisterDue]
  | Connected =>
    cases ts with
    | none => cases flag <;> simp [Behaviour.refresh, Behaviour.reregisterDue]
    | some t =>
      by_cases hlt : t < now <;> cases flag <;>
        simp [Behaviour.refresh, Behaviour.reregisterDue, Behaviour.registerMsg, hlt]

/-! ## Wire codec (swap/src/network/swap_setup.rs)

The payload encoding is CBOR (serde_cbor): data items are a head byte
holding a major type and a small count, followed by the count in
big-endian bytes when it does not fit the head byte. serde encodes a
struct as a map from field-name text strings to values in declaration
order, a unit enum variant as the text string of its name, and a data
carrying variant as a one-entry map from the variant name to its
content. Bytes are modelled as Nat values below 256. -/

/-- Read exactly k bytes off the front of the stream. -/
def readBytes : Nat → List Nat → Option (List Nat × List Nat)
  | 0, l => some ([], l)
  | _ + 1, [] => none
  | k + 1, b :: l => (readBytes k l).map fun p => (b :: p.1, p.2)

theorem readBytes_append (xs r : List Nat) :
    readBytes xs.length (xs ++ r) = some (xs, r) := by
  induction xs with
  | nil => rfl
  | cons b t ih => simp [readBytes, ih]

/-- Big-endian bytes of n, k bytes wide. -/
def beBytes : Nat → Nat → List Nat
  | 0, _ => []
  | k + 1, n => beBytes k (n / 256) ++ [n % 256]

/-- Value of a big-endian byte string. -/
def beVal (l : List Nat) : Nat := l.foldl (fun acc b => acc * 256 + b) 0

theorem beBytes_length (k : Nat) : ∀ n, (beBytes k n).length = k := by
  induction k with
  | zero => intro n; rfl
  | succ k ih => intro n; simp [beBytes, ih]

theorem beVal_beBytes (k : Nat) : ∀ n, beVal (beBytes k n) = n % 256 ^ k := by
  induction k with
  | zero => intro n; simp [beBytes, beVal, Nat.mod_one]
  | succ k ih =>
    intro n
    have h1 : beVal (beBytes (k + 1) n) = beVal (beBytes k (n / 256)) * 256 + n % 256 := by
      simp [beBytes, beVal, List.foldl_append]
    rw [h1, ih, pow_succ, Nat.mul_comm (256 ^ k) 256, Nat.mod_mul]
    ring

/-- CBOR head: major type in the top three bits of the first byte, the
count n in the low five bits when below 24, otherwise in one, two, four
or eight following big-endian bytes (minimal-width encoding). -/
def encodeHead (major n : Nat) : List Nat :=
  if n < 24 then [major * 32 + n]
  else if n < 256 then [major * 32 + 24, n]
  else if n < 65536 then (major * 32 + 25) :: beBytes 2 n
  else if n < 4294967296 then (major * 32 + 26) :: beBytes 4 n
  else (major * 32 + 27) :: beBytes 8 n

/-- Parse a CBOR head of the given major type. -/
def parseHead (major : Nat) : List Nat → Option (Nat × List Nat)
  | [] => none
  | b :: l =>
    if b / 32 = major then
      if b % 32 < 24 then some (b % 32, l)
      else if b % 32 = 24 then
        match l with
        | x :: t => some (x, t)
        | [] => none
      else if b % 32 = 25 then (readBytes 2 l).map fun p => (beVal p.1, p.2)
      else if b % 32 = 26 then (readBytes 4 l).map fun p => (beVal p.1, p.2)
      else if b % 32 = 27 then (readBytes 8 l).map fun p => (beVal p.1, p.2)
      else none
    else none

theorem readBE_beBytes (k n : Nat) (r : List Nat) (h : n < 256 ^ k) :
    ∃ a, readBytes k (beBytes k n ++ r) = some (a, r) ∧ beVal a = n := by
  have hb := readBytes_append (beBytes k n) r
  rw [beBytes_length] at hb
  exact ⟨beBytes k n, hb, by rw [beVal_beBytes]; exact Nat.mod_eq_of_lt h⟩

theorem parseHead_encodeHead (major n : Nat) (r : List Nat)
    (_hm : major < 8) (hn : n < 18446744073709551616) :
    parseHead major (encodeHead major n ++ r) = some (n, r) := by
  unfold encodeHead
  by_cases h1 : n < 24
  · have hd : (major * 32 + n) / 32 = major := by omega
    have hm32 : (major * 32 + n) % 32 = n := by omega
    simp [h1, parseHead, hd, hm32]
  · by_cases h2 : n < 256
    · have hd : (major * 32 + 24) / 32 = major := by omega
      have hm32 : (major * 32 + 24) % 32 = 24 := by omega
      simp [h1, h2, parseHead, hd, hm32]
    · by_cases h3 : n < 65536
      · have hd : (major * 32 + 25) / 32 = major := by omega
        have hm32 : (major * 32 + 25) % 32 = 25 := by omega
        simp [h1, h2, h3, parseHead, hd, hm32]
        exact readBE_beBytes 2 n r (by omega)
      · by_cases h4 : n < 4294967296
        · have hd : (major * 32 + 26) / 32 = major := by omega
          have hm32 : (major * 32 + 26) % 32 = 26 := by omega
          simp [h1, h2, h3, h4, parseHead, hd, hm32]
          exact readBE_beBytes 4 n r (by omega)
        · have hd : (major * 32 + 27) / 32 = major := by omega
          have hm32 : (major * 32 + 27) % 32 = 27 := by omega
          simp [h1, h2, h3, h4, parseHead, hd, hm32]
          exact readBE_beBytes 8 n r (by omega)

theorem parseHead_wrong_major (m1 m2 n : Nat) (r : List Nat)
    (_hm : m2 < 8) (hne : m1 ≠ m2) :
    parseHead m1 (encodeHead m2 n ++ r) = none := by
  unfold encodeHead
  split_ifs with h1 h2 h3 h4 <;>
    · have hd : ∀ c, c < 32 → (m2 * 32 + c) / 32 = m2 := by omega
      simp only [List.cons_append, parseHead]
      rw [if_neg]
      rw [hd _ (by omega)]
      omega

/-- The bytes of an ASCII text string. -/
def strBytes (s : String) : List Nat := s.toList.map Char.toNat

/-- CBOR text string: head of major type 3 with the byte length,
followed by the bytes. -/
def encodeText (s : String) : List Nat :=
  encodeHead 3 (strBytes s).length ++ strBytes s

/-- Parse a CBOR text string, returning its bytes. -/
def parseTextBytes (l : List Nat) : Option (List Nat × List Nat) :=
  match parseHead 3 l with
  | some (len, l1) => readBytes len l1
  | none => none

/-- Parse a text string and require it to be the given literal. -/
def expectLit (s : String) (l : List Nat) : Option (List Nat) :=
  match parseTextBytes l with
  | some (bs, r) => if bs = strBytes s then some r else none
  | none => none

/-- Parse a CBOR map head (major type 5) and require the given entry count. -/
def expectMapHead (n : Nat) (l : List Nat) : Option (List Nat) :=
  match parseHead 5 l with
  | some (k, r) => if k = n then some r else none
  | none => none

/-- CBOR unsigned integer (major type 0). -/
def encodeUInt (n : Nat) : List Nat := encodeHead 0 n

def parseUInt (l : List Nat) : Option (Nat × List Nat) := parseHead 0 l

theorem parseUInt_encodeUInt (n : Nat) (r : List Nat) (hn : n < 18446744073709551616) :
    parseUInt (encodeUInt n ++ r) = some (n, r) :=
  parseHead_encodeHead 0 n r (by omega) hn

theorem parseTextBytes_encodeText (s : String) (r : List Nat)
    (h : (strBytes s).length < 18446744073709551616) :
    parseTextBytes (encodeText s ++ r) = some (strBytes s, r) := by
  have h1 : parseHead 3 (encodeHead 3 (strBytes s).length ++ (strBytes s ++ r))
      = some ((strBytes s).length, strBytes s ++ r) :=
    parseHead_encodeHead 3 _ _ (by omega) h
  simp [parseTextBytes, encodeText, List.append_assoc, h1, readBytes_append]

theorem expectLit_encodeText (s : String) (r : List Nat)
    (h : (strBytes s).length < 18446744073709551616) :
    expectLit s (encodeText s ++ r) = some r := by
  simp [expectLit, parseTextBytes_encodeText s r h]

theorem expectMapHead_encodeHead (n : Nat) (r : List Nat)
    (h : n < 18446744073709551616) :
    expectMapHead n (encodeHead 5 n ++ r) = some r := by
  simp [expectMapHead, parseHead_encodeHead 5 n r (by omega) h]

/-- A text parse fails on a map head. -/
theorem parseTextBytes_mapHead (n : Nat) (r : List Nat) :
    parseTextBytes (encodeHead 5 n ++ r) = none := by
  simp [parseTextBytes, parseHead_wrong_major 3 5 n r (by omega) (by omega)]

/-! ## Negotiation protocol messages (swap_setup.rs lines 36-83) -/

/-- Modelled from the spec: the serde helper crate::bitcoin::network that
fixes the wire representation of bitcoin::Network is not under src/; the
spec describes the field as a network identifier distinguishing chain
variants such as mainnet and testnet, so it is modelled as a two-variant
enum written as the CBOR text string of the variant name. -/
inductive BitcoinNetwork where
  | Mainnet
  | Testnet
deriving DecidableEq, Repr

/-- Modelled from the spec: the serde helper crate::monero::network is
likewise not under src/; modelled the same way as the bitcoin side. -/
inductive MoneroNetwork where
  | Mainnet
  | Testnet
deriving DecidableEq, Repr

/-- BlockchainNetwork (swap_setup.rs lines 36-42). -/
structure BlockchainNetwork where
  bitcoin : BitcoinNetwork
  monero : MoneroNetwork
deriving DecidableEq, Repr

/-- SpotPriceRequest (swap_setup.rs lines 44-49); the bitcoin::Amount is
serialized as its satoshi count, a u64, modelled as a bounded Nat. -/
structure SpotPriceRequest where
  btc : Nat
  blockchain_network : BlockchainNetwork
deriving DecidableEq, Repr

/-- SpotPriceError (swap_setup.rs lines 57-83). -/
inductive SpotPriceError where
  | NoSwapsAccepted
  | AmountBelowMinimum (min buy : Nat)
  | AmountAboveMaximum (max buy : Nat)
  | BalanceTooLow (buy : Nat)
  | BlockchainNetworkMismatch (cli asb : BlockchainNetwork)
  | Other
deriving DecidableEq, Repr

/-- SpotPriceResponse (swap_setup.rs lines 51-55); the monero::Amount is
a u64 piconero count, modelled as a bounded Nat. -/
inductive SpotPriceResponse where
  | Xmr (amount : Nat)
  | Error (e : SpotPriceError)
deriving DecidableEq, Repr

/-- One more than the largest u64. -/
def u64Bound : Nat := 18446744073709551616

/-- All amounts are representable as u64. -/
def SpotPriceRequest.wf (q : SpotPriceRequest) : Bool := decide (q.btc < u64Bound)

def SpotPriceError.wf : SpotPriceError → Bool
  | .AmountBelowMinimum m b => decide (m < u64Bound) && decide (b < u64Bound)
  | .AmountAboveMaximum m b => decide (m < u64Bound) && decide (b < u64Bound)
  | .BalanceTooLow b => decide (b < u64Bound)
  | _ => true

def SpotPriceResponse.wf : SpotPriceResponse → Bool
  | .Xmr a => decide (a < u64Bound)
  | .Error e => e.wf

/-! ### serde_cbor encoding of the messages -/

def encBitcoinNetwork : BitcoinNetwork → List Nat
  | .Mainnet => encodeText "Mainnet"
  | .Testnet => encodeText "Testnet"

def encMoneroNetwork : MoneroNetwork → List Nat
  | .Mainnet => encodeText "Mainnet"
  | .Testnet => encodeText "Testnet"

def encBlockchainNetwork (bn : BlockchainNetwork) : List Nat :=
  encodeHead 5 2 ++ encodeText "bitcoin" ++ encBitcoinNetwork bn.bitcoin
    ++ encodeText "monero" ++ encMoneroNetwork bn.monero

def encSpotPriceRequest (q : SpotPriceRequest) : List Nat :=
  encodeHead 5 2 ++ encodeText "btc" ++ encodeUInt q.btc
    ++ encodeText "blockchain_network" ++ encBlockchainNetwork q.blockchain_network

def encSpotPriceError : SpotPriceError → List Nat
  | .NoSwapsAccepted => encodeText "NoSwapsAccepted"
  | .Other => encodeText "Other"
  | .AmountBelowMinimum m b =>
      encodeHead 5 1 ++ encodeText "AmountBelowMinimum"
        ++ encodeHead 5 2 ++ encodeText "min" ++ encodeUInt m
        ++ encodeText "buy" ++ encodeUInt b
  | .AmountAboveMaximum m b =>
      encodeHead 5 1 ++ encodeText "AmountAboveMaximum"
        ++ encodeHead 5 2 ++ encodeText "max" ++ encodeUInt m
        ++ encodeText "buy" ++ encodeUInt b
  | .BalanceTooLow b =>
      encodeHead 5 1 ++ encodeText "BalanceTooLow"
        ++ encodeHead 5 1 ++ encodeText "buy" ++ encodeUInt b
  | .BlockchainNetworkMismatch cli asb =>
      encodeHead 5 1 ++ encodeText "BlockchainNetworkMismatch"
        ++ encodeHead 5 2 ++ encodeText "cli" ++ encBlockchainNetwork cli
        ++ encodeText "asb" ++ encBlockchainNetwork asb

def encSpotPriceResponse : SpotPriceResponse → List Nat
  | .Xmr a => encodeHead 5 1 ++ encodeText "Xmr" ++ encodeUInt a
  | .Error e => encodeHead 5 1 ++ encodeText "Error" ++ encSpotPriceError e

/-! ### Type-directed decoding, as serde Deserialize performs it -/

def parseBitcoinNetwork (l : List Nat) : Option (BitcoinNetwork × List Nat) :=
  match parseTextBytes l with
  | some (bs, r) =>
    if bs = strBytes "Mainnet" then some (.Mainnet, r)
    else if bs = strBytes "Testnet" then some (.Testnet, r)
    else none
  | none => none

def parseMoneroNetwork (l : List Nat) : Option (MoneroNetwork × List Nat) :=
  match parseTextBytes l with
  | some (bs, r) =>
    if bs = strBytes "Mainnet" then some (.Mainnet, r)
    else if bs = strBytes "Testnet" then some (.Testnet, r)
    else none
  | none => none

def parseBlockchainNetwork (l : List Nat) : Option (BlockchainNetwork × List Nat) := do
  let l ← expectMapHead 2 l
  let l ← expectLit "bitcoin" l
  let (bt, l) ← parseBitcoinNetwork l
  let l ← expectLit "monero" l
  let (xm, l) ← parseMoneroNetwork l
  pure (⟨bt, xm⟩, l)

def parseSpotPriceRequest (l : List Nat) : Option (SpotPriceRequest × List Nat) := do
  let l ← expectMapHead 2 l
  let l ← expectLit "btc" l
  let (a, l) ← parseUInt l
  let l ← expectLit "blockchain_network" l
  let (bn, l) ← parseBlockchainNetwork l
  pure (⟨a, bn⟩, l)

/-- An externally tagged enum is either a bare text string naming a unit
variant or a one-entry map from the variant name to its content. -/
def parseSpotPriceError (l : List Nat) : Option (SpotPriceError × List Nat) :=
  match parseTextBytes l with
  | some (bs, r) =>
    if bs = strBytes "NoSwapsAccepted" then some (.NoSwapsAccepted, r)
    else if bs = strBytes "Other" then some (.Other, r)
    else none
  | none => do
    let l ← expectMapHead 1 l
    let (bs, l) ← parseTextBytes l
    if bs = strBytes "AmountBelowMinimum" then do
      let l ← expectMapHead 2 l
      let l ← expectLit "min" l
      let (m, l) ← parseUInt l
      let l ← expectLit "buy" l
      let (b, l) ← parseUInt l
      pure (.AmountBelowMinimum m b, l)
    else if bs = strBytes "AmountAboveMaximum" then do
      let l ← expectMapHead 2 l
      let l ← expectLit "max" l
      let (m, l) ← parseUInt l
      let l ← expectLit "buy" l
      let (b, l) ← parseUInt l
      pure (.AmountAboveMaximum m b, l)
    else if bs = strBytes "BalanceTooLow" then do
      let l ← expectMapHead 1 l
      let l ← expectLit "buy" l
      let (b, l) ← parseUInt l
      pure (.BalanceTooLow b, l)
    else if bs = strBytes "BlockchainNetworkMismatch" then do
      let l ← expectMapHead 2 l
      let l ← expectLit "cli" l
      let (c, l) ← parseBlockchainNetwork l
      let l ← expectLit "asb" l
      let (a, l) ← parseBlockchainNetwork l
      pure (.BlockchainNetworkMismatch c a, l)
    else none

def parseSpotPriceResponse (l : List Nat) : Option (SpotPriceResponse × List Nat) := do
  let l ← expectMapHead 1 l
  let (bs, l) ← parseTextBytes l
  if bs = strBytes "Xmr" then do
    let (a, l) ← parseUInt l
    pure (.Xmr a, l)
  else if bs = strBytes "Error" then do
    let (e, l) ← parseSpotPriceError l
    pure (.Error e, l)
  else none

/-! ### Round-trip lemmas for the payload encoding -/

theorem textRT (s : String) (h : (strBytes s).length < 18446744073709551616) :
    ∀ t, parseTextBytes (encodeText s ++ t) = some (strBytes s, t) :=
  fun t => parseTextBytes_encodeText s t h

theorem litRT (s : String) (h : (strBytes s).length < 18446744073709551616) :
    ∀ t, expectLit s (encodeText s ++ t) = some t :=
  fun t => expectLit_encodeText s t h

theorem mapRT (n : Nat) (h : n < 18446744073709551616) :
    ∀ t, expectMapHead n (encodeHead 5 n ++ t) = some t :=
  fun t => expectMapHead_encodeHead n t h

theorem uintRT (n : Nat) (h : n < u64Bound) :
    ∀ t, parseUInt (encodeUInt n ++ t) = some (n, t) :=
  fun t => parseUInt_encodeUInt n t h

theorem parseBN_encBN (bn : BlockchainNetwork) (r : List Nat) :
    parseBlockchainNetwork (encBlockchainNetwork bn ++ r) = some (bn, r) := by
  obtain ⟨bt, xm⟩ := bn
  cases bt <;> cases xm <;>
    simp [parseBlockchainNetwork, encBlockchainNetwork, encBitcoinNetwork, encMoneroNetwork,
      parseBitcoinNetwork, parseMoneroNetwork, List.append_assoc,
      mapRT 2 (by omega), litRT "bitcoin" (by decide), litRT "monero" (by decide),
      textRT "Mainnet" (by decide), textRT "Testnet" (by decide),
      (by decide : strBytes "Testnet" ≠ strBytes "Mainnet")]

theorem parseReq_encReq (q : SpotPriceRequest) (r : List Nat) (hw : q.wf = true) :
    parseSpotPriceRequest (encSpotPriceRequest q ++ r) = some (q, r) := by
  rw [SpotPriceRequest.wf, decide_eq_true_eq] at hw
  obtain ⟨a, bn⟩ := q
  simp [parseSpotPriceRequest, encSpotPriceRequest, List.append_assoc,
    mapRT 2 (by omega), litRT "btc" (by decide), litRT "blockchain_network" (by decide),
    uintRT a hw, parseBN_encBN]

theorem parseErr_encErr (e : SpotPriceError) (r : List Nat) (hw : e.wf = true) :
    parseSpotPriceError (encSpotPriceError e ++ r) = some (e, r) := by
  cases e with
  | NoSwapsAccepted =>
    simp [parseSpotPriceError, encSpotPriceError, List.append_assoc,
      textRT "NoSwapsAccepted" (by decide)]
  | Other =>
    simp [parseSpotPriceError, encSpotPriceError, List.append_assoc,
      textRT "Other" (by decide),
      (by decide : strBytes "Other" ≠ strBytes "NoSwapsAccepted")]
  | AmountBelowMinimum m b =>
    simp only [SpotPriceError.wf, Bool.and_eq_true, decide_eq_true_eq] at hw
    obtain ⟨hm, hb⟩ := hw
    simp [parseSpotPriceError, encSpotPriceError, List.append_assoc, parseTextBytes_mapHead,
      mapRT 1 (by omega), mapRT 2 (by omega), textRT "AmountBelowMinimum" (by decide),
      litRT "min" (by decide), litRT "buy" (by decide), uintRT m hm, uintRT b hb]
  | AmountAboveMaximum m b =>
    simp only [SpotPriceError.wf, Bool.and_eq_true, decide_eq_true_eq] at hw
    obtain ⟨hm, hb⟩ := hw
    simp [parseSpotPriceError, encSpotPriceError, List.append_assoc, parseTextBytes_mapHead,
      mapRT 1 (by omega), mapRT 2 (by omega), textRT "AmountAboveMaximum" (by decide),
      litRT "max" (by decide), litRT "buy" (by decide), uintRT m hm, uintRT b hb,
      (by decide : strBytes "AmountAboveMaximum" ≠ strBytes "AmountBelowMinimum")]
  | BalanceTooLow b =>
    simp only [SpotPriceError.wf, decide_eq_true_eq] at hw
    simp [parseSpotPriceError, encSpotPriceError, List.append_assoc, parseTextBytes_mapHead,
      mapRT 1 (by omega), textRT "BalanceTooLow" (by decide),
      litRT "buy" (by decide), uintRT b hw,
      (by decide : strBytes "BalanceTooLow" ≠ strBytes "AmountBelowMinimum"),
      (by decide : strBytes "BalanceTooLow" ≠ strBytes "AmountAboveMaximum")]
  | BlockchainNetworkMismatch c a =>
    simp [parseSpotPriceError, encSpotPriceError, List.append_assoc, parseTextBytes_mapHead,
      mapRT 1 (by omega), mapRT 2 (by omega), textRT "BlockchainNetworkMismatch" (by decide),
      litRT "cli" (by decide), litRT "asb" (by decide), parseBN_encBN,
      (by decide : strBytes "BlockchainNetworkMismatch" ≠ strBytes "AmountBelowMinimum"),
      (by decide : strBytes "BlockchainNetworkMismatch" ≠ strBytes "AmountAboveMaximum"),
      (by decide : strBytes "BlockchainNetworkMismatch" ≠ strBytes "BalanceTooLow")]

theorem parseResp_encResp (p : SpotPriceResponse) (r : List Nat) (hw : p.wf = true) :
    parseSpotPriceResponse (encSpotPriceResponse p ++ r) = some (p, r) := by
  cases p with
  | Xmr a =>
    simp only [SpotPriceResponse.wf, decide_eq_true_eq] at hw
    simp [parseSpotPriceResponse, encSpotPriceResponse, List.append_assoc,
      mapRT 1 (by omega), textRT "Xmr" (by decide), uintRT a hw]
  | Error e =>
    simp only [SpotPriceResponse.wf] at hw
    simp [parseSpotPriceResponse, encSpotPriceResponse, List.append_assoc,
      mapRT 1 (by omega), textRT "Error" (by decide),
      (by decide : strBytes "Error" ≠ strBytes "Xmr"),
      parseErr_encErr e r hw]

/-! ### Length-prefixed framing (swap_setup.rs lines 85-107)

read_cbor_message calls upgrade::read_one(substream, BUF_SIZE), which
reads one length-prefixed frame and fails when the declared length
exceeds the maximum, then deserializes; write_cbor_message serializes
and writes one frame. A frame is modelled as its declared length plus
the payload bytes available on the stream. -/

def BUF_SIZE : Nat := 1024 * 1024

structure Frame where
  declaredLen : Nat
  payload : List Nat
deriving DecidableEq, Repr

inductive ReadError where
  | tooLarge
  | io
  | deserializeFailed
deriving DecidableEq, Repr

/-- upgrade::read_one: fail on an oversized declared length before
touching the payload, then read exactly the declared number of bytes. -/
def readOne (maxSize : Nat) (f : Frame) : Except ReadError (List Nat) :=
  if f.declaredLen > maxSize then .error .tooLarge
  else if f.payload.length = f.declaredLen then .ok f.payload
  else .error .io

/-- read_cbor_message (swap_setup.rs lines 85-94): read one frame with
BUF_SIZE as the maximum, then deserialize; a deserialization failure is
an error, never a partial decode. -/
def readCborMessage {α : Type} (des : List Nat → Option α) (f : Frame) : Except ReadError α :=
  match readOne BUF_SIZE f with
  | .error e => .error e
  | .ok bytes =>
    match des bytes with
    | some m => .ok m
    | none => .error .deserializeFailed

/-- write_cbor_message (swap_setup.rs lines 96-107): serialize, then
write the bytes as one length-prefixed frame. -/
def writeCborMessage {α : Type} (enc : α → List Nat) (m : α) : Frame :=
  { declaredLen := (enc m).length, payload := enc m }

/-- serde_cbor Deserializer::from_slice plus T::deserialize: a
type-directed parse of the bytes; trailing bytes are not rejected
because read_cbor_message never calls end(). -/
def desSpotPriceRequest (bytes : List Nat) : Option SpotPriceRequest :=
  (parseSpotPriceRequest bytes).map Prod.fst

def desSpotPriceResponse (bytes : List Nat) : Option SpotPriceResponse :=
  (parseSpotPriceResponse bytes).map Prod.fst

theorem frameRT {α : Type} (enc : α → List Nat) (parse : List Nat → Option (α × List Nat))
    (m : α) (hlen : (enc m).length ≤ BUF_SIZE)
    (hparse : parse (enc m ++ []) = some (m, [])) :
    readCborMessage (fun bytes => (parse bytes).map Prod.fst) (writeCborMessage enc m) = .ok m := by
  rw [List.append_nil] at hparse
  simp [readCborMessage, writeCborMessage, readOne, Nat.not_lt.mpr hlen, hparse]

/-! ### Encoding size bounds: every message fits one frame -/

theorem encodeHead_length_le (major n : Nat) : (encodeHead major n).length ≤ 9 := by
  unfold encodeHead
  split_ifs <;> simp [beBytes_length]

theorem encBN_length_le (bn : BlockchainNetwork) : (encBlockchainNetwork bn).length ≤ 33 := by
  obtain ⟨bt, xm⟩ := bn
  cases bt <;> cases xm <;> decide

theorem encReq_length_le (q : SpotPriceRequest) : (encSpotPriceRequest q).length ≤ 100 := by
  have h1 := encodeHead_length_le 0 q.btc
  have h2 := encBN_length_le q.blockchain_network
  have e1 : (encodeHead 5 2).length = 1 := by decide
  have e2 : (encodeText "btc").length = 4 := by decide
  have e3 : (encodeText "blockchain_network").length = 19 := by decide
  simp [encSpotPriceRequest, encodeUInt, e1, e2, e3] at h1 ⊢
  omega

theorem encErr_length_le (e : SpotPriceError) : (encSpotPriceError e).length ≤ 110 := by
  cases e with
  | NoSwapsAccepted => decide
  | Other => decide
  | AmountBelowMinimum m b =>
    have h1 := encodeHead_length_le 0 m
    have h2 := encodeHead_length_le 0 b
    simp [encSpotPriceError, encodeUInt] at h1 h2 ⊢
    have e1 : (encodeHead 5 1).length = 1 := by decide
    have e2 : (encodeHead 5 2).length = 1 := by decide
    have e3 : (encodeText "AmountBelowMinimum").length = 19 := by decide
    have e4 : (encodeText "min").length = 4 := by decide
    have e5 : (encodeText "buy").length = 4 := by decide
    simp [e1, e2, e3, e4, e5]
    omega
  | AmountAboveMaximum m b =>
    have h1 := encodeHead_length_le 0 m
    have h2 := encodeHead_length_le 0 b
    simp [encSpotPriceError, encodeUInt] at h1 h2 ⊢
    have e1 : (encodeHead 5 1).length = 1 := by decide
    have e2 : (encodeHead 5 2).length = 1 := by decide
    have e3 : (encodeText "AmountAboveMaximum").length = 19 := by decide
    have e4 : (encodeText "max").length = 4 := by decide
    have e5 : (encodeText "buy").length = 4 := by decide
    simp [e1, e2, e3, e4, e5]
    omega
  | BalanceTooLow b =>
    have h1 := encodeHead_length_le 0 b
    simp [encSpotPriceError, encodeUInt] at h1 ⊢
    have e1 : (encodeHead 5 1).length = 1 := by decide
    have e2 : (encodeText "BalanceTooLow").length = 14 := by decide
    have e3 : (encodeText "buy").length = 4 := by decide
    simp [e1, e2, e3]
    omega
  | BlockchainNetworkMismatch c a =>
    have h1 := encBN_length_le c
    have h2 := encBN_length_le a
    simp [encSpotPriceError] at h1 h2 ⊢
    have e1 : (encodeHead 5 1).length = 1 := by decide
    have e2 : (encodeHead 5 2).length = 1 := by decide
    have e3 : (encodeText "BlockchainNetworkMismatch").length = 27 := by decide
    have e4 : (encodeText "cli").length = 4 := by decide
    have e5 : (encodeText "asb").length = 4 := by decide
    simp [e1, e2, e3, e4, e5]
    omega

theorem encResp_length_le (p : SpotPriceResponse) : (encSpotPriceResponse p).length ≤ 120 := by
  cases p with
  | Xmr a =>
    have h1 := encodeHead_length_le 0 a
    simp [encSpotPriceResponse, encodeUInt] at h1 ⊢
    have e1 : (encodeHead 5 1).length = 1 := by decide
    have e2 : (encodeText "Xmr").length = 4 := by decide
    simp [e1, e2]
    omega
  | Error e =>
    have h1 := encErr_length_le e
    simp [encSpotPriceResponse] at h1 ⊢
    have e1 : (encodeHead 5 1).length = 1 := by decide
    have e2 : (encodeText "Error").length = 6 := by decide
    simp [e1, e2]
    omega

/-! ### Claim theorems for the wire codec -/

/-- Claim C5: round-trip law for the wire codec: for every constructible
request and response value (all declined-reason variants included) whose
amounts are representable as u64, decoding the encoding yields the value
back, at the payload level with any trailing bytes and through the
length-prefixed frame written by write_cbor_message. -/
theorem wire_codec_roundtrip :
    (∀ (q : SpotPriceRequest) (r : List Nat), q.wf = true →
        parseSpotPriceRequest (encSpotPriceRequest q ++ r) = some (q, r)
        ∧ readCborMessage desSpotPriceRequest (writeCborMessage encSpotPriceRequest q) = .ok q)
    ∧ (∀ (p : SpotPriceResponse) (r : List Nat), p.wf = true →
        parseSpotPriceResponse (encSpotPriceResponse p ++ r) = some (p, r)
        ∧ readCborMessage desSpotPriceResponse (writeCborMessage encSpotPriceResponse p) = .ok p) := by
  constructor
  · intro q r hw
    refine ⟨parseReq_encReq q r hw, ?_⟩
    exact frameRT encSpotPriceRequest parseSpotPriceRequest q
      (le_trans (encReq_length_le q) (by decide))
      (parseReq_encReq q [] hw)
  · intro p r hw
    refine ⟨parseResp_encResp p r hw, ?_⟩
    exact frameRT encSpotPriceResponse parseSpotPriceResponse p
      (le_trans (encResp_length_le p) (by decide))
      (parseResp_encResp p [] hw)

theorem wire_codec_roundtrip_witness :
    parseSpotPriceRequest (encSpotPriceRequest ⟨0, ⟨.Mainnet, .Mainnet⟩⟩ ++ [])
      = some (⟨0, ⟨.Mainnet, .Mainnet⟩⟩, [])
    ∧ parseSpotPriceResponse (encSpotPriceResponse (.Xmr 18446744073709551615) ++ [])
      = some (.Xmr 18446744073709551615, [])
    ∧ readCborMessage desSpotPriceRequest
        (writeCborMessage encSpotPriceRequest ⟨18446744073709551615, ⟨.Testnet, .Testnet⟩⟩)
      = .ok ⟨18446744073709551615, ⟨.Testnet, .Testnet⟩⟩ :=
  ⟨(wire_codec_roundtrip.1 ⟨0, ⟨.Mainnet, .Mainnet⟩⟩ [] (by decide)).1,
   (wire_codec_roundtrip.2 (.Xmr 18446744073709551615) [] (by decide)).1,
   (wire_codec_roundtrip.1 ⟨18446744073709551615, ⟨.Testnet, .Testnet⟩⟩ [] (by decide)).2⟩

/-- Claim C6: the maximum frame size is 1,048,576 bytes; a frame whose
declared length exceeds it is a hard read failure whose outcome does not
depend on the deserializer (deserialization is never invoked), and a
deserialization failure on a well-framed payload is likewise a hard
failure. -/
theorem read_message_hard_failures :
    BUF_SIZE = 1048576
    ∧ (∀ (f : Frame), BUF_SIZE < f.declaredLen →
        ∀ (α : Type) (des des2 : List Nat → Option α),
          readCborMessage des f = .error .tooLarge
          ∧ readCborMessage des f = readCborMessage des2 f)
    ∧ (∀ (f : Frame) (α : Type) (des : List Nat → Option α),
        f.declaredLen ≤ BUF_SIZE → f.payload.length = f.declaredLen →
        des f.payload = none →
        readCborMessage des f = .error .deserializeFailed) := by
  refine ⟨rfl, ?_, ?_⟩
  · intro f h α des des2
    constructor <;> simp [readCborMessage, readOne, h]
  · intro f α des h1 h2 h3
    simp [readCborMessage, readOne, Nat.not_lt.mpr h1, h2, h3]

theorem read_message_hard_failures_witness :
    readCborMessage (fun _ => some 0) ⟨1048577, []⟩ = .error .tooLarge
    ∧ readCborMessage (fun _ => some 0) ⟨1048577, []⟩
        = readCborMessage (fun _ => (none : Option Nat)) ⟨1048577, []⟩
    ∧ readCborMessage (fun _ : List Nat => (none : Option Nat)) ⟨0, []⟩
        = .error .deserializeFailed :=
  ⟨(read_message_hard_failures.2.1 ⟨1048577, []⟩ (by decide) Nat
      (fun _ => some 0) (fun _ => none)).1,
   (read_message_hard_failures.2.1 ⟨1048577, []⟩ (by decide) Nat
      (fun _ => some 0) (fun _ => none)).2,
   read_message_hard_failures.2.2 ⟨0, []⟩ Nat _ (by decide) rfl rfl⟩

end XmrBtcSwap
